import Mathlib

/-!
Verification of the VOC analytics engine (voc_analyzer.py).

Shallow embedding conventions:
* pandas timestamps are modelled as integer epoch seconds in UTC
  (NaT / missing values as Option);
* Python floats are modelled as exact rationals;
* a normalized dataframe is a list of fixed-shape rows (the canonical
  columns created_at / category / subcategory / content / content_text
  always exist, matching the output of standardise_columns);
* NaN / None cell values are Option.none;
* dict and set iteration is modelled as insertion order
  (first-occurrence order for sets).
-/

namespace VOC

/-- Character class trimmed by the Python str.strip() used in the source
(ASCII whitespace). -/
def pyWs (c : Char) : Bool :=
  c = ' ' || c = '\t' || c = '\n' || c = '\r' || c = '\x0b' || c = '\x0c'

/-- Removes trailing whitespace characters. -/
def trimEndChars (l : List Char) : List Char :=
  (l.reverse.dropWhile pyWs).reverse

/-- Removes leading and trailing whitespace characters. -/
def stripChars (l : List Char) : List Char :=
  trimEndChars (l.dropWhile pyWs)

/-- Python str.strip(). -/
def pyStrip (s : String) : String := ⟨stripChars s.data⟩

/-- Python str.lower(); ASCII letters are lowered, Hangul is unaffected,
matching CPython behaviour on the strings this program manipulates. -/
def pyLower (s : String) : String := ⟨s.data.map Char.toLower⟩

/-- Python str.replace of a newline by a space. -/
def replaceNewlines (s : String) : String :=
  ⟨s.data.map (fun c => if c = '\n' then ' ' else c)⟩

/-- Does the first list occur as an initial segment of the second? -/
def lstarts : List Char → List Char → Bool
  | [], _ => true
  | _ :: _, [] => false
  | a :: as, b :: bs => a == b && lstarts as bs

/-- Does the first list occur as a contiguous sublist of the second? -/
def lcontainsSub (needle : List Char) : List Char → Bool
  | [] => needle.isEmpty
  | c :: cs => lstarts needle (c :: cs) || lcontainsSub needle cs

/-- Python substring membership test (needle in hay). -/
def strContains (hay needle : String) : Bool :=
  lcontainsSub needle.data hay.data

/-- Python str.startswith. -/
def strStarts (s pre : String) : Bool := lstarts pre.data s.data

/-- Python str.endswith. -/
def strEnds (s suf : String) : Bool := lstarts suf.data.reverse s.data.reverse

/-- Does the text contain any of the given keywords?  This is the meaning
of the regex alternations used in determine_phase_from_row, whose patterns
contain only literal branches. -/
def containsAny (hay : String) (needles : List String) : Bool :=
  needles.any (fun n => strContains hay n)

/-- A normalized VOC row (the canonical schema produced by
standardise_columns): created_at is a parsed UTC timestamp in epoch
seconds or missing; content_text is the derived plain-text field, which
is always a string. -/
structure Row where
  created_at : Option Int
  category : Option String
  subcategory : Option String
  content : Option String
  content_text : String
deriving DecidableEq

/-- Asia/Seoul is UTC+9 with no daylight saving, so the local calendar
day of a UTC instant is obtained by shifting 9 hours and flooring to
days.  This models tz_convert("Asia/Seoul") followed by dt.normalize():
comparing the normalized local-midnight timestamps of the source is
equivalent to comparing these local day numbers. -/
def kstDay (t : Int) : Int := (t + 9 * 3600).fdiv 86400

/-- Result of compute_recent_windows_kst: the dict with keys full,
recent_30d, recent_90d, prev_30d. -/
structure Windows where
  full : List Row
  recent_30d : List Row
  recent_90d : List Row
  prev_30d : List Row
deriving DecidableEq

/-- mask_valid und mask_future und (created_kst_day >= start30), written
on local day numbers; today0 is the reference's local day. -/
def maskR30 (today0 : Int) (r : Row) : Bool :=
  match r.created_at with
  | none => false
  | some t => decide (kstDay t < today0 + 1) && decide (today0 - 29 ≤ kstDay t)

/-- mask_valid und (created_kst_day >= prev_start30) und
(created_kst_day < prev_end30). -/
def maskP30 (today0 : Int) (r : Row) : Bool :=
  match r.created_at with
  | none => false
  | some t => decide (today0 - 59 ≤ kstDay t) && decide (kstDay t < today0 - 29)

/-- mask_valid und mask_future und (created_kst_day >= start90). -/
def maskR90 (today0 : Int) (r : Row) : Bool :=
  match r.created_at with
  | none => false
  | some t => decide (kstDay t < today0 + 1) && decide (today0 - 89 ≤ kstDay t)

/-- compute_recent_windows_kst.  The "created_at not in df" branch cannot
arise in the fixed-schema model; the reference instant is the explicit
parameter (the production default pd.Timestamp.now is a caller concern).
If every created_at is missing, all three named windows are the empty
frame, as in the source. -/
def compute_recent_windows_kst (df : List Row) (reference : Int) : Windows :=
  if df.all (fun r => r.created_at.isNone) then
    { full := df, recent_30d := [], recent_90d := [], prev_30d := [] }
  else
    let today0 := kstDay reference
    { full := df
      recent_30d := df.filter (maskR30 today0)
      recent_90d := df.filter (maskR90 today0)
      prev_30d := df.filter (maskP30 today0) }

/-- Stable deduplication keeping first occurrences (the order of
dict.fromkeys and of pandas hash-table key discovery). -/
def firstDedupAux (seen : List String) : List String → List String
  | [] => []
  | x :: xs =>
    if x ∈ seen then firstDedupAux seen xs
    else x :: firstDedupAux (x :: seen) xs

/-- Stable first-occurrence deduplication. -/
def firstDedup (l : List String) : List String := firstDedupAux [] l

/-- JSON values, the model of what json.loads returns. -/
inductive JVal where
  | jnull
  | jbool (b : Bool)
  | jnum (q : ℚ)
  | jstr (s : String)
  | jarr (elems : List JVal)
  | jobj (fields : List (String × JVal))

/-- JSON insignificant whitespace. -/
def jWs (c : Char) : Bool := c = ' ' || c = '\t' || c = '\n' || c = '\r'

/-- Skips JSON whitespace. -/
def skipJWs (l : List Char) : List Char := l.dropWhile jWs

/-- Value of a hexadecimal digit. -/
def hexDigitVal (c : Char) : Option Nat :=
  if '0' ≤ c ∧ c ≤ '9' then some (c.toNat - 48)
  else if 'a' ≤ c ∧ c ≤ 'f' then some (c.toNat - 87)
  else if 'A' ≤ c ∧ c ≤ 'F' then some (c.toNat - 55)
  else none

/-- Reads the body of a JSON string after the opening quote, returning
the decoded characters and the remainder after the closing quote.
Surrogate pairs are not recombined (irrelevant to the program's data). -/
def jStrBody : Nat → List Char → Option (List Char × List Char)
  | 0, _ => none
  | _, [] => none
  | fuel + 1, c :: cs =>
    if c = '"' then some ([], cs)
    else if c = '\\' then
      match cs with
      | [] => none
      | e :: es =>
        let cont := fun (ch : Char) (rest : List Char) =>
          match jStrBody fuel rest with
          | some (body, r) => some (ch :: body, r)
          | none => none
        if e = '"' then cont '"' es
        else if e = '\\' then cont '\\' es
        else if e = '/' then cont '/' es
        else if e = 'b' then cont '\x08' es
        else if e = 'f' then cont '\x0c' es
        else if e = 'n' then cont '\n' es
        else if e = 'r' then cont '\r' es
        else if e = 't' then cont '\t' es
        else if e = 'u' then
          match es with
          | h1 :: h2 :: h3 :: h4 :: rest =>
            match hexDigitVal h1, hexDigitVal h2, hexDigitVal h3, hexDigitVal h4 with
            | some a, some b, some c', some d =>
              cont (Char.ofNat (((a * 16 + b) * 16 + c') * 16 + d)) rest
            | _, _, _, _ => none
          | _ => none
        else none
    else if c.toNat < 32 then none
    else
      match jStrBody fuel cs with
      | some (body, r) => some (c :: body, r)
      | none => none

/-- Value of a decimal digit. -/
def digitVal (c : Char) : Option Nat :=
  if '0' ≤ c ∧ c ≤ '9' then some (c.toNat - 48) else none

/-- Takes a maximal run of decimal digits. -/
def takeDigits : List Char → (List Nat × List Char)
  | [] => ([], [])
  | c :: cs =>
    match digitVal c with
    | some d => let p := takeDigits cs; (d :: p.1, p.2)
    | none => ([], c :: cs)

/-- Natural number denoted by a digit run. -/
def natOfDigits (ds : List Nat) : Nat := ds.foldl (fun a d => a * 10 + d) 0

/-- Parses an unsigned JSON number (integer, fraction, exponent). -/
def jNumCore (l1 : List Char) : Option (ℚ × List Char) :=
  match takeDigits l1 with
  | ([], _) => none
  | (ds, l2) =>
    let ip : ℚ := (natOfDigits ds : ℚ)
    let fracStep : Option (ℚ × List Char) :=
      match l2 with
      | '.' :: r =>
        match takeDigits r with
        | ([], _) => none
        | (fs, r2) => some (ip + (natOfDigits fs : ℚ) / ((10 : ℚ) ^ fs.length), r2)
      | _ => some (ip, l2)
    match fracStep with
    | none => none
    | some (q, l3) =>
      match l3 with
      | 'e' :: r =>
        match r with
        | '+' :: r1 =>
          match takeDigits r1 with
          | ([], _) => none
          | (es, r2) => some (q * (10 : ℚ) ^ natOfDigits es, r2)
        | '-' :: r1 =>
          match takeDigits r1 with
          | ([], _) => none
          | (es, r2) => some (q / (10 : ℚ) ^ natOfDigits es, r2)
        | _ =>
          match takeDigits r with
          | ([], _) => none
          | (es, r2) => some (q * (10 : ℚ) ^ natOfDigits es, r2)
      | 'E' :: r =>
        match r with
        | '+' :: r1 =>
          match takeDigits r1 with
          | ([], _) => none
          | (es, r2) => some (q * (10 : ℚ) ^ natOfDigits es, r2)
        | '-' :: r1 =>
          match takeDigits r1 with
          | ([], _) => none
          | (es, r2) => some (q / (10 : ℚ) ^ natOfDigits es, r2)
        | _ =>
          match takeDigits r with
          | ([], _) => none
          | (es, r2) => some (q * (10 : ℚ) ^ natOfDigits es, r2)
      | _ => some (q, l3)

/-- Parses a JSON number with optional sign. -/
def jNum (l : List Char) : Option (ℚ × List Char) :=
  match l with
  | '-' :: r =>
    match jNumCore r with
    | some (q, rest) => some (-q, rest)
    | none => none
  | _ => jNumCore l

mutual

/-- Parses one JSON value (fuelled recursion; the fuel is always chosen
larger than the input length, which suffices since every recursive call
consumes input). -/
def jValP (fuel : Nat) (l : List Char) : Option (JVal × List Char) :=
  match fuel with
  | 0 => none
  | f + 1 =>
    match skipJWs l with
    | [] => none
    | c :: cs =>
      if c = '\x7b' then
        match skipJWs cs with
        | '\x7d' :: rest => some (JVal.jobj [], rest)
        | _ => jObjP f cs []
      else if c = '[' then
        match skipJWs cs with
        | ']' :: rest => some (JVal.jarr [], rest)
        | _ => jArrP f cs []
      else if c = '"' then
        match jStrBody (cs.length + 1) cs with
        | some (body, rest) => some (JVal.jstr ⟨body⟩, rest)
        | none => none
      else if c = 't' then
        match cs with
        | 'r' :: 'u' :: 'e' :: rest => some (JVal.jbool true, rest)
        | _ => none
      else if c = 'f' then
        match cs with
        | 'a' :: 'l' :: 's' :: 'e' :: rest => some (JVal.jbool false, rest)
        | _ => none
      else if c = 'n' then
        match cs with
        | 'u' :: 'l' :: 'l' :: rest => some (JVal.jnull, rest)
        | _ => none
      else
        match jNum (c :: cs) with
        | some (q, rest) => some (JVal.jnum q, rest)
        | none => none

/-- Parses the elements of a non-empty JSON array after the bracket. -/
def jArrP (fuel : Nat) (l : List Char) (acc : List JVal) : Option (JVal × List Char) :=
  match fuel with
  | 0 => none
  | f + 1 =>
    match jValP f l with
    | none => none
    | some (v, rest) =>
      match skipJWs rest with
      | ',' :: r2 => jArrP f r2 (acc ++ [v])
      | ']' :: r2 => some (JVal.jarr (acc ++ [v]), r2)
      | _ => none

/-- Parses the members of a non-empty JSON object after the brace. -/
def jObjP (fuel : Nat) (l : List Char) (acc : List (String × JVal)) :
    Option (JVal × List Char) :=
  match fuel with
  | 0 => none
  | f + 1 =>
    match skipJWs l with
    | '"' :: cs =>
      match jStrBody (cs.length + 1) cs with
      | none => none
      | some (keyBody, r1) =>
        match skipJWs r1 with
        | ':' :: r2 =>
          match jValP f r2 with
          | none => none
          | some (v, r3) =>
            match skipJWs r3 with
            | ',' :: r4 => jObjP f r4 (acc ++ [(⟨keyBody⟩, v)])
            | '\x7d' :: r4 => some (JVal.jobj (acc ++ [(⟨keyBody⟩, v)]), r4)
            | _ => none
        | _ => none
    | _ => none

end

/-- json.loads: parses the full text as one JSON document, tolerating
surrounding whitespace and rejecting trailing garbage. -/
def jsonParse (s : String) : Option JVal :=
  match jValP (s.length + 1) s.data with
  | some (v, rest) => if skipJWs rest = [] then some v else none
  | none => none

/-- A spreadsheet cell value: missing / NaN / None collapse to none.
Numeric cells enter the model as their rendered text (the columns this
program reads from the sheet are text columns). -/
abbrev Cell := Option String

/-- is_json_object: a string cell that, stripped, starts with a brace,
ends with a brace, and parses as JSON. -/
def is_json_object (value : Cell) : Bool :=
  match value with
  | none => false
  | some s =>
    let text := pyStrip s
    strStarts text "\x7b" && strEnds text "\x7d" && (jsonParse text).isSome

/-- Python truthiness of a decoded JSON value. -/
def pyTruthy : JVal → Bool
  | .jnull => false
  | .jbool b => b
  | .jnum q => decide (q ≠ 0)
  | .jstr s => decide (s ≠ "")
  | .jarr xs => !xs.isEmpty
  | .jobj fs => !fs.isEmpty

mutual

/-- Python repr of a decoded JSON value (approximate for non-integral
numbers, whose float repr has no exact rational form; string escaping in
repr is ignored, which is faithful for the program's data). -/
def jReprV : JVal → String
  | .jnull => "None"
  | .jbool b => if b then "True" else "False"
  | .jnum q => if q.den = 1 then toString q.num else toString q
  | .jstr s => "'" ++ s ++ "'"
  | .jarr xs => "[" ++ jReprList xs ++ "]"
  | .jobj fs => "\x7b" ++ jReprFields fs ++ "\x7d"

/-- Comma-separated repr of a list of JSON values. -/
def jReprList : List JVal → String
  | [] => ""
  | [x] => jReprV x
  | x :: y :: xs => jReprV x ++ ", " ++ jReprList (y :: xs)

/-- Comma-separated repr of the members of a JSON object. -/
def jReprFields : List (String × JVal) → String
  | [] => ""
  | [(k, v)] => "'" ++ k ++ "': " ++ jReprV v
  | (k, v) :: y :: xs => "'" ++ k ++ "': " ++ jReprV v ++ ", " ++ jReprFields (y :: xs)

end

/-- Python str() of a decoded JSON value. -/
def pyStrJ : JVal → String
  | .jstr s => s
  | v => jReprV v

/-- Python x or y on optional JSON values (None and falsy values yield
the second operand). -/
def pyOrJ (a b : Option JVal) : Option JVal :=
  match a with
  | some v => if pyTruthy v then some v else b
  | none => b

/-- A raw row as handed to assign_content_text: the ordered columns with
their cell values. -/
abbrev RawRow := List (String × Cell)

/-- row.get(col): none for a missing column as well as for a NaN cell. -/
def rowGet (row : RawRow) (k : String) : Cell :=
  match row.lookup k with
  | some c => c
  | none => none

/-- The candidate text columns of assign_content_text: labels containing
both an inquiry and a content marker, or equal (case-insensitively) to
desc / description, in column order, deduplicated. -/
def candidate_columns (cols : List String) : List String :=
  firstDedup (cols.filter (fun name =>
    (strContains name "문의" && strContains name "내용") ||
    (pyLower name = "desc" || pyLower name = "description")))

/-- Scans the candidate columns in order for the first non-empty,
non-structured text. -/
def scanCandidates (row : RawRow) : List String → Option String
  | [] => none
  | c :: cs =>
    match rowGet row c with
    | none => scanCandidates row cs
    | some v =>
      if pyStrip v = "" then scanCandidates row cs
      else if is_json_object (some (pyStrip v)) then scanCandidates row cs
      else some (pyStrip v)

/-- The desc / description extraction from a structured content value. -/
def descFallback (row : RawRow) : Option String :=
  match rowGet row "content" with
  | none => none
  | some raw =>
    if is_json_object (some raw) then
      match jsonParse raw with
      | some (JVal.jobj fields) =>
        match pyOrJ (fields.lookup "desc") (fields.lookup "description") with
        | some dv => if pyTruthy dv then some (pyStrip (pyStrJ dv)) else none
        | none => none
      | _ => none
    else none

/-- The final fallback to the raw content value as text. -/
def finalFallback (row : RawRow) : Option String :=
  match rowGet row "content" with
  | none => none
  | some v => some (pyStrip v)

/-- The per-row body of assign_content_text. -/
def assign_content_text_row (cands : List String) (row : RawRow) : String :=
  match scanCandidates row cands with
  | some t => t
  | none =>
    match descFallback row with
    | some t => t
    | none =>
      match finalFallback row with
      | some t => t
      | none => ""

/-- assign_content_text over a whole raw table. -/
def assign_content_text (cols : List String) (rows : List RawRow) : List String :=
  rows.map (assign_content_text_row (candidate_columns cols))

/-- A raw row whose content cell is a serialized object without a desc or
description member. -/
def rowJson : RawRow := [("content", some "\x7b\"a\": 1\x7d")]


/-- A concrete row whose local date is 30 days before the reference's
local date. -/
def rowMinus30 : Row :=
  { created_at := some (86400 * 70), category := some "A",
    subcategory := none, content := none, content_text := "" }

/-- A concrete row whose local date equals the reference's local date. -/
def rowToday : Row :=
  { created_at := some (86400 * 100), category := some "A",
    subcategory := none, content := none, content_text := "" }

/-- A concrete reference instant (UTC midnight of local day 100). -/
def refInstant : Int := 86400 * 100

/-- Stable descending sort by count.  pandas value_counts orders keys by
descending count; tie order is modelled as first-occurrence order
(a stable sort over the hash-table discovery order). -/
def sortPairsDesc (l : List (String × Nat)) : List (String × Nat) :=
  List.insertionSort (fun a b => b.2 ≤ a.2) l

/-- pandas Series.value_counts().to_dict(): each distinct value paired
with its number of occurrences, in descending count order. -/
def valueCounts (l : List String) : List (String × Nat) :=
  sortPairsDesc ((firstDedup l).map (fun k => (k, l.count k)))

/-- Python dict.get(k, 0) on a counts dict. -/
def lookupCount (k : String) (counts : List (String × Nat)) : Nat :=
  (counts.lookup k).getD 0

/-- map_category_to_phase: the category-keyword classifier used by
aggregate_phase_counts, with first-match-wins rules and an other
bucket. -/
def map_category_to_phase (category : Option String) : String :=
  match category with
  | none => "기타"
  | some c =>
    if c = "" then "기타"
    else
      let cl := pyLower (pyStrip c)
      if strContains cl "장비" then "준비"
      else if strContains cl "기기" then "준비"
      else if strContains cl "환경" then "준비"
      else if strContains cl "수업" then "진행"
      else if strContains cl "커리큘럼" then "진행"
      else if strContains cl "멘토" then "진행"
      else if strContains cl "지원" then "지원"
      else if strContains cl "장려금" then "행정"
      else if strContains cl "행정" then "행정"
      else if strContains cl "출석" then "행정"
      else "기타"

/-- aggregate_phase_counts: per-phase counts over a window using
map_category_to_phase. -/
def aggregate_phase_counts (df : List Row) : List (String × Nat) :=
  match df with
  | [] => []
  | _ :: _ => valueCounts (df.map (fun r => map_category_to_phase r.category))

/-- determine_phase_from_row: concatenates the lower-cased category,
subcategory, derived text and raw content, and tests the four pattern
sets first-match-wins, defaulting to the in-progress phase. -/
def determine_phase_from_row (r : Row) : String :=
  let text := pyLower (r.category.getD "" ++ " " ++ r.subcategory.getD "" ++ " " ++
    r.content_text ++ " " ++ r.content.getD "")
  if containsAny text ["장비", "노트북", "맥북", "사양", "대여", "반납", "주변기기",
      "모니터", "마우스", "키보드"] then "학습 준비"
  else if containsAny text ["플랫폼", "실습", "콘솔", "빌드", "로그인", "접속", "출결",
      "qr", "오류", "강의실"] then "학습 진행"
  else if containsAny text ["장려금", "지원금", "지급", "자격", "증빙", "정산"] then "학습 지원"
  else if containsAny text ["수강 변경", "휴가", "공가", "행정", "신청", "증명서", "환불",
      "이관", "출석"] then "행정 처리"
  else "학습 진행"

/-- compose_issue_keys, per row: category and subcategory are
NaN-filled, stripped; the key is the category, or category > subcategory
when the subcategory is non-empty; an entirely empty key becomes the
unclassified sentinel. -/
def compose_issue_key (r : Row) : String :=
  let cat := pyStrip (r.category.getD "")
  let sub := pyStrip (r.subcategory.getD "")
  let key := if sub = "" then cat else cat ++ " > " ++ sub
  if key = "" then "미분류" else key

/-- compose_issue_keys over a window. -/
def compose_issue_keys (df : List Row) : List String := df.map compose_issue_key

/-- A row with an empty category and a non-empty subcategory. -/
def rowEmptyCat : Row :=
  { created_at := none, category := some "", subcategory := some "환불",
    content := none, content_text := "" }

/-- A row with no category, subcategory, content or derived text. -/
def rowBlank : Row :=
  { created_at := none, category := none, subcategory := none,
    content := none, content_text := "" }

/-- A month-over-month change value: the +infinity sentinel or a finite
percentage. -/
inductive PctVal where
  | inf
  | val (q : ℚ)
deriving DecidableEq

/-- Gregorian leap year. -/
def isLeap (y : Int) : Bool := (y % 4 == 0 && y % 100 != 0) || y % 400 == 0

/-- Number of days in a month. -/
def lastDayOfMonth (y : Int) (m : Nat) : Nat :=
  if m = 2 then (if isLeap y then 29 else 28)
  else if m = 4 ∨ m = 6 ∨ m = 9 ∨ m = 11 then 30
  else 31

/-- Days since 1970-01-01 of a proleptic Gregorian date (Hinnant's
civil-from-days algorithm, inverted). -/
def daysFromCivil (y : Int) (m d : Nat) : Int :=
  let y' := if m ≤ 2 then y - 1 else y
  let era := y'.fdiv 400
  let yoe := (y' - era * 400).toNat
  let mp := if 2 < m then m - 3 else m + 9
  let doy := (153 * mp + 2) / 5 + d - 1
  let doe := yoe * 365 + yoe / 4 - yoe / 100 + doy
  era * 146097 + (doe : Int) - 719468

/-- Proleptic Gregorian date (year, month, day) of a day number since
1970-01-01 (Hinnant's algorithm). -/
def civilFromDays (z0 : Int) : Int × Nat × Nat :=
  let z := z0 + 719468
  let era := z.fdiv 146097
  let doe := (z - era * 146097).toNat
  let yoe := (doe - doe / 1460 + doe / 36524 - doe / 146096) / 365
  let y := (yoe : Int) + era * 400
  let doy := doe - (365 * yoe + yoe / 4 - yoe / 100)
  let mp := (5 * doy + 2) / 153
  let d := doy - (153 * mp + 2) / 5 + 1
  let m := if mp < 10 then mp + 3 else mp - 9
  (if m ≤ 2 then y + 1 else y, m, d)

/-- to_period("M").to_timestamp(): midnight starting the UTC calendar
month of a timestamp. -/
def monthStartEpoch (t : Int) : Int :=
  let c := civilFromDays (t.fdiv 86400)
  daysFromCivil c.1 c.2.1 1 * 86400

/-- month start minus DateOffset(months=1). -/
def prevMonthStartEpoch (ms : Int) : Int :=
  let c := civilFromDays (ms.fdiv 86400)
  if c.2.1 = 1 then daysFromCivil (c.1 - 1) 12 1 * 86400
  else daysFromCivil c.1 (c.2.1 - 1) 1 * 86400

/-- month start plus MonthEnd(0): midnight of the last calendar day of
the same month (pandas offsets preserve the midnight time of day). -/
def monthEndEpoch (ms : Int) : Int :=
  let c := civilFromDays (ms.fdiv 86400)
  daysFromCivil c.1 c.2.1 (lastDayOfMonth c.1 c.2.1) * 86400

/-- Series.between with its default inclusive bounds. -/
def betweenIncl (lo hi t : Int) : Bool := decide (lo ≤ t) && decide (t ≤ hi)

/-- df.dropna(subset=created_at). -/
def validRows (df : List Row) : List Row := df.filter (fun r => r.created_at.isSome)

/-- Maximum valid created_at timestamp. -/
def maxCreated (l : List Row) : Option Int :=
  l.foldl
    (fun acc r =>
      match r.created_at with
      | none => acc
      | some t =>
        match acc with
        | none => some t
        | some m => some (max m t))
    none

/-- The category values of a row list with missing categories dropped
(value_counts drops NaN). -/
def catList (l : List Row) : List String := l.filterMap (fun r => r.category)

/-- The valid rows whose timestamp lies in the inclusive window. -/
def monthWindowRows (df : List Row) (lo hi : Int) : List Row :=
  (validRows df).filter (fun r =>
    match r.created_at with
    | some t => betweenIncl lo hi t
    | none => false)

/-- The inclusive (start, end) bounds of the current and previous month
windows of month_over_month_change, when any valid timestamp exists. -/
def momBounds (df : List Row) : Option ((Int × Int) × (Int × Int)) :=
  match maxCreated (validRows df) with
  | none => none
  | some m =>
    let ms := monthStartEpoch m
    let pms := prevMonthStartEpoch ms
    some ((ms, monthEndEpoch ms), (pms, monthEndEpoch pms))

/-- month_over_month_change: per-category percentage change between the
previous-month and current-month windows, with the +infinity sentinel
when the previous count is zero. -/
def month_over_month_change (df : List Row) : List (String × PctVal) :=
  match momBounds df with
  | none => []
  | some b =>
    let thisM := monthWindowRows df b.1.1 b.1.2
    let prevM := monthWindowRows df b.2.1 b.2.2
    if thisM.isEmpty && prevM.isEmpty then []
    else
      let thisCounts := valueCounts (catList thisM)
      let prevCounts := valueCounts (catList prevM)
      let cats := firstDedup (thisCounts.map Prod.fst ++ prevCounts.map Prod.fst)
      cats.map (fun c =>
        (c, if lookupCount c prevCounts = 0 then
              (if 0 < lookupCount c thisCounts then PctVal.inf else PctVal.val 0)
            else
              PctVal.val (((lookupCount c thisCounts : ℚ) - (lookupCount c prevCounts : ℚ))
                / (lookupCount c prevCounts : ℚ) * 100)))

/-- Number of rows of a given category in the current-month window. -/
def curMonthCount (df : List Row) (c : String) : Nat :=
  match momBounds df with
  | none => 0
  | some b => List.count c (catList (monthWindowRows df b.1.1 b.1.2))

/-- Number of rows of a given category in the previous-month window. -/
def prevMonthCount (df : List Row) (c : String) : Nat :=
  match momBounds df with
  | none => 0
  | some b => List.count c (catList (monthWindowRows df b.2.1 b.2.2))

/-- A row of category A dated 2024-05-31 12:00 UTC (noon of the last day
of its month, and the maximum timestamp of its dataset). -/
def rowMay31 : Row :=
  { created_at := some (daysFromCivil 2024 5 31 * 86400 + 43200), category := some "A",
    subcategory := none, content := none, content_text := "" }

/-- A row of category B dated 2024-05-15 00:00 UTC. -/
def rowMay15 : Row :=
  { created_at := some (daysFromCivil 2024 5 15 * 86400), category := some "B",
    subcategory := none, content := none, content_text := "" }

/-- A dataset whose maximum timestamp falls after midnight on the last
day of its UTC month. -/
def dsMoM : List Row := [rowMay31, rowMay15]

/-- Python round() to an integer: banker's rounding (round half to
even), on the exact rational model of the float. -/
def roundHalfEven (q : ℚ) : Int :=
  let f := q.floor
  let r := q - (f : ℚ)
  if r < 1 / 2 then f
  else if 1 / 2 < r then f + 1
  else if f % 2 = 0 then f else f + 1

/-- Python round(x, 1). -/
def round1 (q : ℚ) : ℚ := ((roundHalfEven (q * 10) : Int) : ℚ) / 10

/-- change_percentage (the Apps Script changePct port). -/
def change_percentage (current previous : Nat) : ℚ :=
  if previous = 0 ∧ 0 < current then 100
  else if previous = 0 ∧ current = 0 then 0
  else (((current : ℚ) - (previous : ℚ)) / ((max 1 previous : Nat) : ℚ)) * 100

/-- Python s[:n] on strings. -/
def strTake (s : String) (n : Nat) : String := ⟨s.data.take n⟩

/-- Truncation of a quote to a character limit with an ellipsis. -/
def truncateTo (limit : Nat) (s : String) : String :=
  if limit < s.length then strTake s (limit - 3) ++ "..." else s

/-- The localized example-quote decoration. -/
def makeQuote (text : String) : String := "예: \"" ++ text ++ "\""

/-- The quote text of a row: content_text, falling back to the raw
content when empty, stripped, with newlines replaced by spaces. -/
def rowQuoteText (r : Row) : String :=
  replaceNewlines (pyStrip (if r.content_text = "" then r.content.getD "" else r.content_text))

/-- Insertion-ordered dict update: applies f to the value at the key,
inserting f applied to the default at the end when the key is absent. -/
def updA {α : Type} (k : String) (dflt : α) (f : α → α) :
    List (String × α) → List (String × α)
  | [] => [(k, f dflt)]
  | (k', v) :: rest =>
    if k' = k then (k', f v) :: rest else (k', v) :: updA k dflt f rest

/-- One step of the issue_quotes accumulation of summarize_top_issues:
rows with empty quote text are skipped entirely; otherwise the issue key
is ensured and, below the per-issue limit, the decorated truncated quote
is appended. -/
def issueQuotesStep (qpi : Nat) (acc : List (String × List String)) (r : Row) :
    List (String × List String) :=
  if rowQuoteText r = "" then acc
  else
    updA (compose_issue_key r) []
      (fun l => if qpi ≤ l.length then l else l ++ [makeQuote (truncateTo 120 (rowQuoteText r))])
      acc

/-- The issue_quotes dict of summarize_top_issues. -/
def issueQuotes (df : List Row) (qpi : Nat) : List (String × List String) :=
  df.foldl (issueQuotesStep qpi) []

/-- compute_issue_counts: occurrences per issue key. -/
def compute_issue_counts (df : List Row) : List (String × Nat) :=
  match df with
  | [] => []
  | _ :: _ => valueCounts (compose_issue_keys df)

/-- One issue entry of the report (rows of summarize_top_issues and of
the per-phase issue lists). -/
structure IssueRow where
  issue_key : String
  count : Nat
  previous_count : Nat
  change_pct : ℚ
  summary : String
  quotes : List String
deriving DecidableEq

/-- build_issue_summary: the one-line summary string. -/
def build_issue_summary (issue_key : String) (change_pct : ℚ) : String :=
  (if 0 ≤ change_pct then issue_key ++ " 전월 대비 +" else issue_key ++ " 전월 대비 ")
    ++ toString (roundHalfEven change_pct) ++ "%"

/-- summarize_top_issues: per-issue counts of the current window with
previous-window comparison, change percentage rounded to one decimal,
summaries and example quotes, sorted by descending count (stable) and
truncated to the limit. -/
def summarize_top_issues (current previous : List Row) (limit qpi : Nat) : List IssueRow :=
  let currentCounts := compute_issue_counts current
  let previousCounts := compute_issue_counts previous
  let quotes := issueQuotes current qpi
  let rows := currentCounts.map (fun p =>
    ({ issue_key := p.1
       count := p.2
       previous_count := lookupCount p.1 previousCounts
       change_pct := round1 (change_percentage p.2 (lookupCount p.1 previousCounts))
       summary := build_issue_summary p.1
         (round1 (change_percentage p.2 (lookupCount p.1 previousCounts)))
       quotes := (quotes.lookup p.1).getD [] } : IssueRow))
  (List.insertionSort (fun a b => b.count ≤ a.count) rows).take limit

/-- The single issue row produced by summarize_top_issues on a dataset
holding one blank row (change-percentage fields kept in applied form). -/
def c6item : IssueRow :=
  { issue_key := "미분류", count := 1, previous_count := 0,
    change_pct := round1 (change_percentage 1 0),
    summary := build_issue_summary "미분류" (round1 (change_percentage 1 0)),
    quotes := [] }

/-- A phase bucket as accumulated by aggregate_phase_breakdown:
running total, insertion-ordered per-issue counts, and per-issue quote
lists. -/
structure PhaseAcc where
  total : Nat
  issues : List (String × Nat)
  quotes : List (String × List String)
deriving DecidableEq

/-- The setdefault default for a phase bucket. -/
def phaseAccInit : PhaseAcc := { total := 0, issues := [], quotes := [] }

/-- Processing of one current row by aggregate_phase_breakdown: the
row's phase bucket gets its total bumped, its issue count bumped, its
quote key ensured and, below the quote limit and for non-empty text, the
decorated truncated quote appended. -/
def aggStep (qpi : Nat) (acc : List (String × PhaseAcc)) (r : Row) :
    List (String × PhaseAcc) :=
  updA (determine_phase_from_row r) phaseAccInit
    (fun pa =>
      { total := pa.total + 1
        issues := updA (compose_issue_key r) 0 (fun n => n + 1) pa.issues
        quotes := updA (compose_issue_key r) []
          (fun l =>
            if l.length < qpi ∧ rowQuoteText r ≠ "" then
              l ++ [makeQuote (truncateTo 120 (rowQuoteText r))]
            else l)
          pa.quotes })
    acc

/-- Processing of one previous row: nested phase → issue-key counts. -/
def prevStep (acc : List (String × List (String × Nat))) (r : Row) :
    List (String × List (String × Nat)) :=
  updA (determine_phase_from_row r) []
    (updA (compose_issue_key r) 0 (fun n => n + 1)) acc

/-- One phase section of the report breakdown. -/
structure PhaseOut where
  total : Nat
  issues : List IssueRow
deriving DecidableEq

/-- The ranked issue list and total of one phase bucket (the result
construction loop of aggregate_phase_breakdown). -/
def phaseOutOf (prevCounts : List (String × List (String × Nat))) (tpp : Nat)
    (pp : String × PhaseAcc) : String × PhaseOut :=
  (pp.1,
   { total := pp.2.total
     issues :=
       (List.insertionSort (fun a b : IssueRow => b.count ≤ a.count)
         (pp.2.issues.map (fun q =>
           ({ issue_key := q.1
              count := q.2
              previous_count := lookupCount q.1 ((prevCounts.lookup pp.1).getD [])
              change_pct := round1 (change_percentage q.2
                (lookupCount q.1 ((prevCounts.lookup pp.1).getD [])))
              summary := build_issue_summary q.1 (round1 (change_percentage q.2
                (lookupCount q.1 ((prevCounts.lookup pp.1).getD []))))
              quotes := (pp.2.quotes.lookup q.1).getD [] } : IssueRow)))).take tpp })

/-- aggregate_phase_breakdown: per-phase totals and ranked per-issue
details over the current rows, with previous counts scoped to the same
phase of the previous rows, truncated to top_per_phase issues. -/
def aggregate_phase_breakdown (current previous : List Row) (qpi tpp : Nat) :
    List (String × PhaseOut) :=
  match current with
  | [] => []
  | _ :: _ =>
    (current.foldl (aggStep qpi) []).map (phaseOutOf (previous.foldl prevStep []) tpp)

/-- Sum of the phase totals of an accumulator. -/
def accTotals (l : List (String × PhaseAcc)) : Nat :=
  (l.map (fun pp => pp.2.total)).sum

/-- The issue row of the phase breakdown of a single blank row. -/
def c10item : IssueRow :=
  { issue_key := "미분류", count := 1, previous_count := 0,
    change_pct := round1 (change_percentage 1 0),
    summary := build_issue_summary "미분류" (round1 (change_percentage 1 0)),
    quotes := [] }

/-- The phase section of the breakdown of a single blank row. -/
def c10out : PhaseOut := { total := 1, issues := [c10item] }

/-- top_categories: NaN-filled category frequencies, top limit entries. -/
def top_categories (df : List Row) (limit : Nat) : List (String × Nat) :=
  match df with
  | [] => []
  | _ :: _ => (valueCounts (df.map (fun r => r.category.getD "미분류"))).take limit

/-- extract_date_info: minimum, maximum and invalid count of
created_at. -/
structure DateInfo where
  dmin : Option Int
  dmax : Option Int
  invalid : Nat
deriving DecidableEq

/-- Minimum of a list of timestamps, none when empty. -/
def minTimes (l : List Int) : Option Int :=
  l.foldl
    (fun acc t =>
      match acc with
      | none => some t
      | some m => some (min m t))
    none

/-- Maximum of a list of timestamps, none when empty. -/
def maxTimes (l : List Int) : Option Int :=
  l.foldl
    (fun acc t =>
      match acc with
      | none => some t
      | some m => some (max m t))
    none

/-- extract_date_info over the created_at column. -/
def extract_date_info (df : List Row) : DateInfo :=
  { dmin := minTimes (df.filterMap (fun r => r.created_at))
    dmax := maxTimes (df.filterMap (fun r => r.created_at))
    invalid := df.length - (df.filterMap (fun r => r.created_at)).length }

/-- summarise_stats output.  The inner compute_recent_windows_kst call
of the source takes no reference and reads the clock; under a frozen
clock it is the same instant as the caller's, the explicit parameter
here. -/
structure Stats where
  total_count : Nat
  recent_30d_count : Nat
  recent_90d_count : Nat
  prev_30d_count : Nat
  top_categories_30d : List (String × Nat)
  top_categories_90d : List (String × Nat)
  top_categories_prev_30d : List (String × Nat)
  mom_change : List (String × PctVal)
  created_at_min : Option Int
  created_at_max : Option Int
  created_at_invalid_rows : Nat

/-- summarise_stats: core statistics over the recent windows. -/
def summarise_stats (df : List Row) (now : Int) : Stats :=
  let windows := compute_recent_windows_kst df now
  let dateInfo := extract_date_info df
  { total_count := df.length
    recent_30d_count := windows.recent_30d.length
    recent_90d_count := windows.recent_90d.length
    prev_30d_count := windows.prev_30d.length
    top_categories_30d := top_categories windows.recent_30d 5
    top_categories_90d := top_categories windows.recent_90d 5
    top_categories_prev_30d := top_categories windows.prev_30d 5
    mom_change := month_over_month_change df
    created_at_min := dateInfo.dmin
    created_at_max := dateInfo.dmax
    created_at_invalid_rows := dateInfo.invalid }

/-- One trend card. -/
structure TrendCard where
  category : String
  change_pct : Option ℚ
  status : String
  emoji : String

/-- build_trend_cards: classification of each month-over-month change
value. -/
def build_trend_cards (df : List Row) : List TrendCard :=
  (month_over_month_change df).map (fun p =>
    match p.2 with
    | PctVal.inf =>
      { category := p.1, change_pct := none, status := "increase", emoji := "🔴" }
    | PctVal.val q =>
      if 20 ≤ q then
        { category := p.1, change_pct := some (round1 q), status := "increase", emoji := "🔴" }
      else if 5 ≤ q then
        { category := p.1, change_pct := some (round1 q), status := "moderate", emoji := "🟡" }
      else
        { category := p.1, change_pct := some (round1 q), status := "stable", emoji := "🟢" })

/-- extract_quotes: the first limit derived texts of the window,
stripped, newline-freed and truncated to 180 characters.  In the
fixed-schema model the content_text column always exists and is never
NaN, so the raw-content fallback branch of the source is not taken. -/
def extract_quotes (df : List Row) (limit : Nat) : List String :=
  match df with
  | [] => []
  | _ :: _ =>
    ((df.map Row.content_text).take limit).map
      (fun v => truncateTo 180 (replaceNewlines (pyStrip v)))

/-- Zero-padded decimal rendering. -/
def padNum (width n : Nat) : String :=
  ⟨List.replicate (width - (toString n).length) '0'⟩ ++ toString n

/-- ISO-8601 rendering of an epoch second with a fixed UTC offset
(seconds resolution, as produced for the whole-second timestamps this
engine handles). -/
def isoWithOffset (t offset : Int) (suffix : String) : String :=
  let lt := t + offset
  let z := lt.fdiv 86400
  let c := civilFromDays z
  let sod := (lt - z * 86400).toNat
  padNum 4 c.1.toNat ++ "-" ++ padNum 2 c.2.1 ++ "-" ++ padNum 2 c.2.2 ++ "T" ++
    padNum 2 (sod / 3600) ++ ":" ++ padNum 2 (sod % 3600 / 60) ++ ":" ++
    padNum 2 (sod % 60) ++ suffix

/-- isoformat of a UTC timestamp. -/
def isoUtc (t : Int) : String := isoWithOffset t 0 "+00:00"

/-- isoformat of a timestamp converted to Asia/Seoul. -/
def isoKst (t : Int) : String := isoWithOffset t 32400 "+09:00"

/-- The analysis_period object of the report meta section. -/
structure AnalysisPeriod where
  label : String
  startIso : Option String
  endIso : Option String

/-- The meta section of the report. -/
structure ReportMeta where
  generated_at : String
  analysis_period : AnalysisPeriod
  total_count : Nat

/-- The windows section of the report. -/
structure ReportWindows where
  recent_30d_count : Nat
  prev_30d_count : Nat
  recent_90d_count : Nat

/-- A ranked top-issue entry. -/
structure RankedIssue where
  rank : Nat
  issue : IssueRow

/-- Rank numbering of the top issues (enumerate starting at 1). -/
def rankFrom (n : Nat) : List IssueRow → List RankedIssue
  | [] => []
  | x :: xs => { rank := n, issue := x } :: rankFrom (n + 1) xs

/-- The issues section of the report. -/
structure ReportIssues where
  top_recent_30d : List RankedIssue
  phase_counts : List (String × Nat)
  phase_breakdown : List (String × PhaseOut)
  trend_cards : List TrendCard

/-- The report document.  Timestamp-typed values are rendered to ISO
strings at construction, which is the effect of the recursive
convert_timestamps pass of the source; the recommendations lists are
emitted empty by the engine. -/
structure Report where
  meta : ReportMeta
  windows : ReportWindows
  issues : ReportIssues
  recent_quotes : List String
  short_term : List String
  mid_term : List String
  long_term : List String

/-- build_report: the full report document for a dataset at a reference
instant.  The source reads the clock twice (once directly, once inside
summarise_stats); with the reference instant frozen both reads yield the
explicit now parameter. -/
def build_report (df : List Row) (now : Int) : Report :=
  let windows := compute_recent_windows_kst df now
  let stats := summarise_stats df now
  let top_issues := summarize_top_issues windows.recent_30d windows.prev_30d 5 2
  { meta :=
      { generated_at := isoKst now
        analysis_period :=
          { label := "최근 30일"
            startIso := stats.created_at_min.map isoUtc
            endIso := stats.created_at_max.map isoUtc }
        total_count := stats.total_count }
    windows :=
      { recent_30d_count := stats.recent_30d_count
        prev_30d_count := stats.prev_30d_count
        recent_90d_count := stats.recent_90d_count }
    issues :=
      { top_recent_30d := rankFrom 1 top_issues
        phase_counts := aggregate_phase_counts windows.recent_30d
        phase_breakdown := aggregate_phase_breakdown windows.recent_30d windows.prev_30d 2 6
        trend_cards := build_trend_cards df }
    recent_quotes := extract_quotes windows.recent_30d 2
    short_term := []
    mid_term := []
    long_term := [] }

lemma maskR30_eq_true {today0 : Int} {r : Row} :
    maskR30 today0 r = true ↔
      ∃ t, r.created_at = some t ∧ kstDay t < today0 + 1 ∧ today0 - 29 ≤ kstDay t := by
  cases h : r.created_at <;> simp [maskR30, h]

lemma maskP30_eq_true {today0 : Int} {r : Row} :
    maskP30 today0 r = true ↔
      ∃ t, r.created_at = some t ∧ today0 - 59 ≤ kstDay t ∧ kstDay t < today0 - 29 := by
  cases h : r.created_at <;> simp [maskP30, h]

lemma maskR90_eq_true {today0 : Int} {r : Row} :
    maskR90 today0 r = true ↔
      ∃ t, r.created_at = some t ∧ kstDay t < today0 + 1 ∧ today0 - 89 ≤ kstDay t := by
  cases h : r.created_at <;> simp [maskR90, h]

lemma not_all_none_of_valid_mem {df : List Row} {r : Row} {t : Int}
    (hmem : r ∈ df) (ht : r.created_at = some t) :
    ¬ (df.all (fun r => r.created_at.isNone) = true) := by
  intro hall
  have := List.all_eq_true.mp hall r hmem
  rw [ht] at this
  simp [Option.isNone] at this

lemma mem_recent30_iff {df : List Row} {reference : Int} {r : Row} :
    r ∈ (compute_recent_windows_kst df reference).recent_30d ↔
      r ∈ df ∧ ∃ t, r.created_at = some t ∧
        kstDay t < kstDay reference + 1 ∧ kstDay reference - 29 ≤ kstDay t := by
  unfold compute_recent_windows_kst
  by_cases hall : df.all (fun r => r.created_at.isNone) = true
  · simp only [hall, if_true]
    simp only [List.not_mem_nil, false_iff, not_and]
    intro hmem ⟨t, ht, _⟩
    exact not_all_none_of_valid_mem hmem ht hall
  · rw [if_neg hall]
    simp only [List.mem_filter, maskR30_eq_true]

lemma mem_prev30_iff {df : List Row} {reference : Int} {r : Row} :
    r ∈ (compute_recent_windows_kst df reference).prev_30d ↔
      r ∈ df ∧ ∃ t, r.created_at = some t ∧
        kstDay reference - 59 ≤ kstDay t ∧ kstDay t < kstDay reference - 29 := by
  unfold compute_recent_windows_kst
  by_cases hall : df.all (fun r => r.created_at.isNone) = true
  · simp only [hall, if_true]
    simp only [List.not_mem_nil, false_iff, not_and]
    intro hmem ⟨t, ht, _⟩
    exact not_all_none_of_valid_mem hmem ht hall
  · rw [if_neg hall]
    simp only [List.mem_filter, maskP30_eq_true]

lemma mem_recent90_iff {df : List Row} {reference : Int} {r : Row} :
    r ∈ (compute_recent_windows_kst df reference).recent_90d ↔
      r ∈ df ∧ ∃ t, r.created_at = some t ∧
        kstDay t < kstDay reference + 1 ∧ kstDay reference - 89 ≤ kstDay t := by
  unfold compute_recent_windows_kst
  by_cases hall : df.all (fun r => r.created_at.isNone) = true
  · simp only [hall, if_true]
    simp only [List.not_mem_nil, false_iff, not_and]
    intro hmem ⟨t, ht, _⟩
    exact not_all_none_of_valid_mem hmem ht hall
  · rw [if_neg hall]
    simp only [List.mem_filter, maskR90_eq_true]

/-- Claim C1, counterexample: a row whose Asia/Seoul local date equals
today0 − 30 days is in prev_30d but also in recent_90d, so it does not
belong to prev_30d only. -/
theorem c1_counterexample :
    rowMinus30 ∈ (compute_recent_windows_kst [rowMinus30] refInstant).prev_30d ∧
    rowMinus30 ∈ (compute_recent_windows_kst [rowMinus30] refInstant).recent_90d := by
  decide

/-- Claim C1 (amended): for every dataset and reference instant, a valid
row whose Asia/Seoul local date equals today0 is in recent_30d and
recent_90d and not prev_30d; a row at today0 − 30 days is in prev_30d and
recent_90d but not recent_30d; a row at today0 + 1 day is in none of the
three named windows. -/
theorem c1_theorem (df : List Row) (reference : Int) (r : Row) (t : Int)
    (hmem : r ∈ df) (ht : r.created_at = some t) :
    (kstDay t = kstDay reference →
      r ∈ (compute_recent_windows_kst df reference).recent_30d ∧
      r ∈ (compute_recent_windows_kst df reference).recent_90d ∧
      r ∉ (compute_recent_windows_kst df reference).prev_30d) ∧
    (kstDay t = kstDay reference - 30 →
      r ∈ (compute_recent_windows_kst df reference).prev_30d ∧
      r ∈ (compute_recent_windows_kst df reference).recent_90d ∧
      r ∉ (compute_recent_windows_kst df reference).recent_30d) ∧
    (kstDay t = kstDay reference + 1 →
      r ∉ (compute_recent_windows_kst df reference).recent_30d ∧
      r ∉ (compute_recent_windows_kst df reference).prev_30d ∧
      r ∉ (compute_recent_windows_kst df reference).recent_90d) := by
  refine ⟨fun hd => ⟨?_, ?_, ?_⟩, fun hd => ⟨?_, ?_, ?_⟩, fun hd => ⟨?_, ?_, ?_⟩⟩
  · exact mem_recent30_iff.mpr ⟨hmem, t, ht, by omega⟩
  · exact mem_recent90_iff.mpr ⟨hmem, t, ht, by omega⟩
  · intro hc
    obtain ⟨-, t', ht', h1, h2⟩ := mem_prev30_iff.mp hc
    rw [ht] at ht'; cases ht'; omega
  · exact mem_prev30_iff.mpr ⟨hmem, t, ht, by omega⟩
  · exact mem_recent90_iff.mpr ⟨hmem, t, ht, by omega⟩
  · intro hc
    obtain ⟨-, t', ht', h1, h2⟩ := mem_recent30_iff.mp hc
    rw [ht] at ht'; cases ht'; omega
  · intro hc
    obtain ⟨-, t', ht', h1, h2⟩ := mem_recent30_iff.mp hc
    rw [ht] at ht'; cases ht'; omega
  · intro hc
    obtain ⟨-, t', ht', h1, h2⟩ := mem_prev30_iff.mp hc
    rw [ht] at ht'; cases ht'; omega
  · intro hc
    obtain ⟨-, t', ht', h1, h2⟩ := mem_recent90_iff.mp hc
    rw [ht] at ht'; cases ht'; omega

/-- Claim C1 witness: the amended theorem applied to a concrete dataset
and reference. -/
theorem c1_witness :
    rowToday ∈ (compute_recent_windows_kst [rowToday] refInstant).recent_30d ∧
    rowToday ∈ (compute_recent_windows_kst [rowToday] refInstant).recent_90d ∧
    rowToday ∉ (compute_recent_windows_kst [rowToday] refInstant).prev_30d :=
  (c1_theorem [rowToday] refInstant rowToday (86400 * 100) (by decide) rfl).1 rfl

/-- Claim C7: for every dataset and reference instant, no row belongs to
both recent_30d and prev_30d. -/
theorem c7_theorem (df : List Row) (reference : Int) (r : Row)
    (h : r ∈ (compute_recent_windows_kst df reference).recent_30d) :
    r ∉ (compute_recent_windows_kst df reference).prev_30d := by
  intro hc
  obtain ⟨-, t, ht, h1, h2⟩ := mem_recent30_iff.mp h
  obtain ⟨-, t', ht', h3, h4⟩ := mem_prev30_iff.mp hc
  rw [ht] at ht'; cases ht'; omega

/-- Claim C7 witness: disjointness applied to a concrete row in the
recent_30d window. -/
theorem c7_witness :
    rowToday ∉ (compute_recent_windows_kst [rowToday] refInstant).prev_30d :=
  c7_theorem [rowToday] refInstant rowToday (by decide)

/-- Claim C9: for every dataset and reference instant, every row of
recent_30d is also in recent_90d. -/
theorem c9_theorem (df : List Row) (reference : Int) (r : Row)
    (h : r ∈ (compute_recent_windows_kst df reference).recent_30d) :
    r ∈ (compute_recent_windows_kst df reference).recent_90d := by
  obtain ⟨hmem, t, ht, h1, h2⟩ := mem_recent30_iff.mp h
  exact mem_recent90_iff.mpr ⟨hmem, t, ht, h1, by omega⟩

/-- Claim C9 witness: containment applied to a concrete row. -/
theorem c9_witness :
    rowToday ∈ (compute_recent_windows_kst [rowToday] refInstant).recent_90d :=
  c9_theorem [rowToday] refInstant rowToday (by decide)

lemma head_of_dropWhile_false {α : Type} {p : α → Bool} :
    ∀ {l : List α} {a : α} {t : List α}, l.dropWhile p = a :: t → p a = false := by
  intro l
  induction l with
  | nil => intro a t h; simp [List.dropWhile] at h
  | cons b l ih =>
    intro a t h
    rw [List.dropWhile_cons] at h
    by_cases hb : p b
    · rw [if_pos hb] at h; exact ih h
    · rw [if_neg hb] at h
      cases h
      simpa using hb

lemma stripChars_idem (l : List Char) : stripChars (stripChars l) = stripChars l := by
  show trimEndChars (List.dropWhile pyWs (trimEndChars (List.dropWhile pyWs l)))
      = trimEndChars (List.dropWhile pyWs l)
  have htrim : ∀ m : List Char, trimEndChars m = List.rdropWhile pyWs m := fun m => rfl
  simp only [htrim]
  have h : List.dropWhile pyWs (List.rdropWhile pyWs (List.dropWhile pyWs l))
      = List.rdropWhile pyWs (List.dropWhile pyWs l) := by
    rcases hy : List.rdropWhile pyWs (List.dropWhile pyWs l) with _ | ⟨a, t⟩
    · rfl
    · have hpre := List.rdropWhile_prefix pyWs (List.dropWhile pyWs l)
      rw [hy] at hpre
      obtain ⟨u, hu⟩ := hpre
      have ha : pyWs a = false := head_of_dropWhile_false (t := t ++ u) (by rw [← hu]; rfl)
      rw [List.dropWhile_cons, ha]
      simp
  rw [h, List.rdropWhile_idempotent]

lemma pyStrip_idem (s : String) : pyStrip (pyStrip s) = pyStrip s :=
  congrArg String.mk (stripChars_idem s.data)

lemma is_json_object_strip (s : String) :
    is_json_object (some (pyStrip s)) = is_json_object (some s) := by
  show (let text := pyStrip (pyStrip s);
        strStarts text "\x7b" && strEnds text "\x7d" && (jsonParse text).isSome)
      = (let text := pyStrip s;
         strStarts text "\x7b" && strEnds text "\x7d" && (jsonParse text).isSome)
  rw [pyStrip_idem]

lemma scanCandidates_not_json {row : RawRow} :
    ∀ {cands : List String} {t : String},
      scanCandidates row cands = some t → is_json_object (some t) = false := by
  intro cands
  induction cands with
  | nil => intro t h; simp [scanCandidates] at h
  | cons c cs ih =>
    intro t h
    rw [scanCandidates] at h
    cases hv : rowGet row c with
    | none =>
      rw [hv] at h
      exact ih h
    | some v =>
      rw [hv] at h
      dsimp only at h
      by_cases h1 : pyStrip v = ""
      · rw [if_pos h1] at h; exact ih h
      · rw [if_neg h1] at h
        by_cases h2 : is_json_object (some (pyStrip v)) = true
        · rw [if_pos h2] at h; exact ih h
        · rw [if_neg h2] at h
          cases h
          rw [is_json_object_strip] at h2 ⊢
          simpa using h2

lemma descFallback_json {row : RawRow} {t : String} (h : descFallback row = some t) :
    ∃ c, rowGet row "content" = some c ∧ is_json_object (some c) = true := by
  unfold descFallback at h
  cases hv : rowGet row "content" with
  | none => rw [hv] at h; cases h
  | some raw =>
    rw [hv] at h
    dsimp only at h
    by_cases hj : is_json_object (some raw) = true
    · exact ⟨raw, rfl, hj⟩
    · rw [if_neg hj] at h
      cases h

/-- Claim C3, counterexample: a row whose content cell is a serialized
object with no desc or description member falls back to the raw content
text, so the final content_text is itself a parseable object literal. -/
theorem c3_counterexample :
    assign_content_text ["content"] [rowJson] = ["\x7b\"a\": 1\x7d"] ∧
    is_json_object (some "\x7b\"a\": 1\x7d") = true := by
  constructor
  · decide
  · decide

/-- Claim C3 (amended): content_text is always a string (by type, in this
embedding), and it can only be a serialized object literal when it was
derived from a raw content cell that is itself a serialized object
literal (via the desc extraction or the raw-content fallback); candidate
columns never contribute structured text. -/
theorem c3_theorem (cols : List String) (row : RawRow)
    (h : is_json_object (some (assign_content_text_row (candidate_columns cols) row)) = true) :
    ∃ c, rowGet row "content" = some c ∧ is_json_object (some c) = true := by
  unfold assign_content_text_row at h
  cases hs : scanCandidates row (candidate_columns cols) with
  | some t =>
    rw [hs] at h
    dsimp only at h
    rw [scanCandidates_not_json hs] at h
    cases h
  | none =>
    rw [hs] at h
    dsimp only at h
    cases hd : descFallback row with
    | some t =>
      exact descFallback_json hd
    | none =>
      rw [hd] at h
      dsimp only at h
      cases hf : rowGet row "content" with
      | none =>
        have hne : finalFallback row = none := by unfold finalFallback; rw [hf]
        rw [hne] at h
        dsimp only at h
        exact absurd h (by decide)
      | some v =>
        have hsome : finalFallback row = some (pyStrip v) := by unfold finalFallback; rw [hf]
        rw [hsome] at h
        dsimp only at h
        refine ⟨v, rfl, ?_⟩
        rw [← is_json_object_strip]
        exact h

/-- Claim C3 witness: the amended theorem applied to the concrete row
whose content_text ends up structured. -/
theorem c3_witness :
    ∃ c, rowGet rowJson "content" = some c ∧ is_json_object (some c) = true :=
  c3_theorem ["content"] rowJson (by decide)

lemma mem_firstDedupAux {x : String} :
    ∀ {l seen : List String}, x ∈ firstDedupAux seen l ↔ x ∈ l ∧ x ∉ seen := by
  intro l
  induction l with
  | nil => intro seen; simp [firstDedupAux]
  | cons a l ih =>
    intro seen
    rw [firstDedupAux]
    by_cases h : a ∈ seen
    · rw [if_pos h, ih]
      constructor
      · rintro ⟨hx, hs⟩
        exact ⟨List.mem_cons_of_mem a hx, hs⟩
      · rintro ⟨hx, hs⟩
        rcases List.mem_cons.mp hx with rfl | hl
        · exact absurd h hs
        · exact ⟨hl, hs⟩
    · rw [if_neg h]
      constructor
      · intro hx
        rcases List.mem_cons.mp hx with rfl | hx2
        · exact ⟨List.mem_cons_self _ _, h⟩
        · obtain ⟨hl, hs⟩ := ih.mp hx2
          exact ⟨List.mem_cons_of_mem a hl, fun hc => hs (List.mem_cons_of_mem a hc)⟩
      · rintro ⟨hx, hs⟩
        rcases List.mem_cons.mp hx with rfl | hl
        · exact List.mem_cons_self x _
        · by_cases hxa : x = a
          · subst hxa
            exact List.mem_cons_self x _
          · refine List.mem_cons_of_mem a (ih.mpr ⟨hl, fun hc => ?_⟩)
            rcases List.mem_cons.mp hc with h1 | h1
            · exact hxa h1
            · exact hs h1

lemma nodup_firstDedupAux : ∀ {l seen : List String}, (firstDedupAux seen l).Nodup := by
  intro l
  induction l with
  | nil => intro seen; simp [firstDedupAux]
  | cons a l ih =>
    intro seen
    rw [firstDedupAux]
    by_cases h : a ∈ seen
    · rw [if_pos h]; exact ih
    · rw [if_neg h]
      refine List.nodup_cons.mpr ⟨fun hc => ?_, ih⟩
      have := (mem_firstDedupAux.mp hc).2
      exact this (List.mem_cons_self a seen)

lemma mem_firstDedup {x : String} {l : List String} : x ∈ firstDedup l ↔ x ∈ l := by
  unfold firstDedup
  rw [mem_firstDedupAux]
  simp

lemma nodup_firstDedup {l : List String} : (firstDedup l).Nodup := nodup_firstDedupAux

lemma lookup_eq_some_of_nodupkeys {β : Type} {l : List (String × β)}
    (hn : (l.map Prod.fst).Nodup) {k : String} {v : β} (hm : (k, v) ∈ l) :
    l.lookup k = some v := by
  induction l with
  | nil => cases hm
  | cons p l ih =>
    obtain ⟨k', v'⟩ := p
    rcases List.mem_cons.mp hm with h | h
    · cases h
      simp [List.lookup]
    · have hk : k ≠ k' := by
        intro hkk
        subst hkk
        exact (List.nodup_cons.mp hn).1 (List.mem_map.mpr ⟨(k, v), h, rfl⟩)
      have hbeq : (k == k') = false := beq_eq_false_iff_ne.mpr hk
      simp only [List.lookup, hbeq]
      exact ih (List.nodup_cons.mp hn).2 h

lemma lookup_eq_none_of_not_mem_keys {β : Type} {l : List (String × β)} {k : String}
    (h : k ∉ l.map Prod.fst) : l.lookup k = none := by
  induction l with
  | nil => rfl
  | cons p l ih =>
    obtain ⟨k', v'⟩ := p
    have hk : k ≠ k' := fun hc => h (by simp [hc])
    have hbeq : (k == k') = false := beq_eq_false_iff_ne.mpr hk
    simp only [List.lookup, hbeq]
    exact ih (fun hc => h (List.mem_cons_of_mem _ hc))

lemma map_fst_countPairs (l : List String) :
    ((firstDedup l).map (fun k => (k, l.count k))).map Prod.fst = firstDedup l := by
  rw [List.map_map]
  exact List.map_id _

lemma nodup_keys_valueCounts (l : List String) :
    ((valueCounts l).map Prod.fst).Nodup := by
  unfold valueCounts sortPairsDesc
  have hperm := (List.perm_insertionSort (fun a b : String × Nat => b.2 ≤ a.2)
    ((firstDedup l).map (fun k => (k, l.count k)))).map Prod.fst
  rw [hperm.nodup_iff, map_fst_countPairs]
  exact nodup_firstDedup

lemma mem_keys_valueCounts {l : List String} {k : String} :
    k ∈ (valueCounts l).map Prod.fst ↔ k ∈ l := by
  unfold valueCounts sortPairsDesc
  rw [List.Perm.mem_iff ((List.perm_insertionSort (fun a b : String × Nat => b.2 ≤ a.2)
    ((firstDedup l).map (fun k => (k, l.count k)))).map Prod.fst)]
  rw [map_fst_countPairs]
  exact mem_firstDedup

lemma lookupCount_valueCounts (l : List String) (k : String) :
    lookupCount k (valueCounts l) = l.count k := by
  by_cases hk : k ∈ l
  · have hm : (k, l.count k) ∈ (firstDedup l).map (fun k => (k, l.count k)) :=
      List.mem_map.mpr ⟨k, mem_firstDedup.mpr hk, rfl⟩
    have hm' : (k, l.count k) ∈ valueCounts l := by
      unfold valueCounts sortPairsDesc
      exact ((List.perm_insertionSort _ _).mem_iff).mpr hm
    rw [lookupCount, lookup_eq_some_of_nodupkeys (nodup_keys_valueCounts l) hm']
    rfl
  · rw [lookupCount,
      lookup_eq_none_of_not_mem_keys (fun hc => hk (mem_keys_valueCounts.mp hc))]
    rw [Option.getD_none, List.count_eq_zero.mpr hk]

/-- Claim C2, counterexample: aggregate_phase_counts classifies a fully
blank row as the other bucket via map_category_to_phase, while the §4.4
classifier determine_phase_from_row assigns it the in-progress phase, so
the two multisets differ. -/
theorem c2_counterexample :
    lookupCount "기타" (aggregate_phase_counts [rowBlank]) = 1 ∧
    List.count "기타" ([rowBlank].map determine_phase_from_row) = 0 ∧
    determine_phase_from_row rowBlank = "학습 진행" := by decide

/-- Claim C2 (amended): for every row set and phase label, the count
reported by aggregate_phase_counts equals the number of rows whose
category is classified to that label by map_category_to_phase (its own
category-keyword classifier, not determine_phase_from_row). -/
theorem c2_theorem (df : List Row) (s : String) :
    lookupCount s (aggregate_phase_counts df) =
      List.count s (df.map (fun r => map_category_to_phase r.category)) := by
  cases df with
  | nil => rfl
  | cons r l =>
    show lookupCount s (valueCounts ((r :: l).map (fun r => map_category_to_phase r.category))) = _
    exact lookupCount_valueCounts _ s

/-- Claim C4, counterexample: a row with empty category and subcategory
환불 gets the key " > 환불", not the unclassified sentinel. -/
theorem c4_counterexample :
    compose_issue_key rowEmptyCat = " > 환불" ∧
    pyStrip (rowEmptyCat.category.getD "") = "" ∧
    compose_issue_key rowEmptyCat ≠ "미분류" := by decide

/-- Claim C4 (amended): the issue key is the category alone when the
trimmed subcategory is empty, category > subcategory otherwise, and the
unclassified sentinel exactly when both trimmed fields are empty. -/
theorem c4_theorem (r : Row) :
    compose_issue_key r =
      if pyStrip (r.category.getD "") = "" ∧ pyStrip (r.subcategory.getD "") = "" then
        "미분류"
      else if pyStrip (r.subcategory.getD "") = "" then
        pyStrip (r.category.getD "")
      else
        pyStrip (r.category.getD "") ++ " > " ++ pyStrip (r.subcategory.getD "") := by
  unfold compose_issue_key
  by_cases hsub : pyStrip (r.subcategory.getD "") = ""
  · by_cases hcat : pyStrip (r.category.getD "") = ""
    · simp [hsub, hcat]
    · simp [hsub, hcat]
  · have hne : pyStrip (r.category.getD "") ++ " > " ++ pyStrip (r.subcategory.getD "") ≠ "" := by
      intro hcon
      have hlen := congrArg String.length hcon
      rw [String.length_append, String.length_append] at hlen
      have h3 : (" > ").length = 3 := rfl
      have h0 : ("" : String).length = 0 := rfl
      omega
    simp [hsub, hne]

lemma lookup_map_self {β : Type} (l : List String) (f : String → β) (c : String) :
    (l.map (fun k => (k, f k))).lookup c = if c ∈ l then some (f c) else none := by
  induction l with
  | nil => simp
  | cons a l ih =>
    by_cases hca : c = a
    · subst hca
      simp [List.lookup]
    · have hbeq : (c == a) = false := beq_eq_false_iff_ne.mpr hca
      simp only [List.map_cons, List.lookup, hbeq, ih, List.mem_cons]
      simp [hca]

/-- Claim C5, counterexample: in a dataset whose maximum valid timestamp
is 2024-05-31 12:00 UTC, the row carrying that maximum lies inside the
current UTC calendar month (May 2024) with previous-month count 0, so
the claim requires its category A to be reported with the +infinity
sentinel; the code instead omits A entirely, because the current-month
window ends at midnight of May 31. -/
theorem c5_counterexample :
    (month_over_month_change dsMoM).lookup "A" = none ∧
    (month_over_month_change dsMoM).lookup "B" = some PctVal.inf ∧
    maxCreated (validRows dsMoM) = some (daysFromCivil 2024 5 31 * 86400 + 43200) ∧
    civilFromDays ((daysFromCivil 2024 5 31 * 86400 + 43200).fdiv 86400) = (2024, 5, 31) ∧
    rowMay31.category = some "A" := by
  refine ⟨by decide, by decide, by decide, by decide, rfl⟩

/-- Claim C5 (amended): month_over_month_change restricts to rows with
valid created_at; the current month window is the inclusive timestamp
range from the start of the UTC calendar month of the maximum valid
timestamp to midnight of that month's last calendar day (so rows on the
last day strictly after 00:00 are excluded), and similarly for the
previous month; per category appearing in either restricted window the
change is the +infinity sentinel if the previous count is 0 and the
current count is positive, 0.0 if the previous count is 0 and the
current count is 0 (unreachable for a reported category), and
(current − previous) / previous × 100 unrounded otherwise; categories
absent from both restricted windows are omitted. -/
theorem c5_theorem (df : List Row) (c : String) :
    (month_over_month_change df).lookup c =
      (if curMonthCount df c = 0 ∧ prevMonthCount df c = 0 then none
       else
         some (if prevMonthCount df c = 0 then
                 (if 0 < curMonthCount df c then PctVal.inf else PctVal.val 0)
               else
                 PctVal.val (((curMonthCount df c : ℚ) - (prevMonthCount df c : ℚ))
                   / (prevMonthCount df c : ℚ) * 100))) := by
  unfold month_over_month_change curMonthCount prevMonthCount
  cases hb : momBounds df with
  | none => simp
  | some b =>
    obtain ⟨⟨ms, me⟩, pms, pme⟩ := b
    dsimp only
    by_cases hemp :
        ((monthWindowRows df ms me).isEmpty && (monthWindowRows df pms pme).isEmpty) = true
    · rw [if_pos hemp]
      obtain ⟨h1, h2⟩ := Bool.and_eq_true_iff.mp hemp
      rw [List.isEmpty_iff] at h1 h2
      rw [h1, h2]
      simp [catList]
    · rw [if_neg hemp]
      rw [lookup_map_self]
      by_cases hc : c ∈ firstDedup
          ((valueCounts (catList (monthWindowRows df ms me))).map Prod.fst ++
           (valueCounts (catList (monthWindowRows df pms pme))).map Prod.fst)
      · rw [if_pos hc]
        have hmem := mem_firstDedup.mp hc
        rw [List.mem_append, mem_keys_valueCounts, mem_keys_valueCounts] at hmem
        have hne : ¬(List.count c (catList (monthWindowRows df ms me)) = 0 ∧
            List.count c (catList (monthWindowRows df pms pme)) = 0) := by
          rintro ⟨hz1, hz2⟩
          rcases hmem with hm | hm
          · exact List.count_eq_zero.mp hz1 hm
          · exact List.count_eq_zero.mp hz2 hm
        rw [if_neg hne]
        simp only [lookupCount_valueCounts]
      · rw [if_neg hc]
        have hnm : c ∉ catList (monthWindowRows df ms me) ∧
            c ∉ catList (monthWindowRows df pms pme) := by
          constructor <;> intro hm <;> refine hc (mem_firstDedup.mpr ?_) <;>
            rw [List.mem_append, mem_keys_valueCounts, mem_keys_valueCounts]
          · exact Or.inl hm
          · exact Or.inr hm
        rw [if_pos ⟨List.count_eq_zero.mpr hnm.1, List.count_eq_zero.mpr hnm.2⟩]

/-- Claim C6: change_percentage returns 100.0 when the previous count is
0 and the current count is positive, 0.0 when both are 0, and
(current − previous) / max(1, previous) × 100 otherwise; in particular
(5,0) gives 100.0, (0,0) gives 0.0 and (15,10) gives 50.0; and every row
of summarize_top_issues carries this value rounded to one decimal. -/
theorem c6_theorem :
    change_percentage 5 0 = 100 ∧ change_percentage 0 0 = 0 ∧ change_percentage 15 10 = 50 ∧
    (∀ current previous : Nat,
      change_percentage current previous =
        if previous = 0 ∧ 0 < current then 100
        else if previous = 0 ∧ current = 0 then 0
        else (((current : ℚ) - (previous : ℚ)) / ((max 1 previous : Nat) : ℚ)) * 100) ∧
    (∀ (current previous : List Row) (limit qpi : Nat) (item : IssueRow),
      item ∈ summarize_top_issues current previous limit qpi →
      item.change_pct = round1 (change_percentage item.count item.previous_count)) := by
  refine ⟨rfl, rfl, by norm_num [change_percentage], fun c p => rfl, ?_⟩
  intro cur prev limit qpi item hmem
  unfold summarize_top_issues at hmem
  dsimp only at hmem
  have h1 := List.mem_of_mem_take hmem
  have h2 := (List.perm_insertionSort (fun a b : IssueRow => b.count ≤ a.count) _).mem_iff.mp h1
  obtain ⟨p, hp, hiq⟩ := List.mem_map.mp h2
  rw [← hiq]

/-- Claim C6 witness: the rounding relation instantiated at the concrete
output of summarize_top_issues on a one-row dataset. -/
theorem c6_witness :
    c6item.change_pct = round1 (change_percentage c6item.count c6item.previous_count) :=
  c6_theorem.2.2.2.2 [rowBlank] [] 5 2 c6item
    (by rw [show summarize_top_issues [rowBlank] [] 5 2 = [c6item] from rfl]
        exact List.mem_singleton_self _)

instance : IsTotal IssueRow (fun a b => b.count ≤ a.count) :=
  ⟨fun a b => Nat.le_total b.count a.count⟩

instance : IsTrans IssueRow (fun a b => b.count ≤ a.count) :=
  ⟨fun _ _ _ h1 h2 => Nat.le_trans h2 h1⟩

lemma accTotals_updA {f : PhaseAcc → PhaseAcc} (hf : ∀ pa, (f pa).total = pa.total + 1)
    (k : String) :
    ∀ acc : List (String × PhaseAcc), accTotals (updA k phaseAccInit f acc) = accTotals acc + 1 := by
  intro acc
  induction acc with
  | nil =>
    show accTotals [(k, f phaseAccInit)] = accTotals [] + 1
    simp [accTotals, hf, phaseAccInit]
  | cons pp rest ih =>
    obtain ⟨k', v⟩ := pp
    rw [updA]
    by_cases hk : k' = k
    · rw [if_pos hk]
      simp only [accTotals, List.map_cons, List.sum_cons, hf]
      omega
    · rw [if_neg hk]
      simp only [accTotals, List.map_cons, List.sum_cons] at ih ⊢
      omega

lemma accTotals_aggStep (qpi : Nat) (r : Row) (acc : List (String × PhaseAcc)) :
    accTotals (aggStep qpi acc r) = accTotals acc + 1 := by
  unfold aggStep
  exact accTotals_updA (fun pa => rfl) _ acc

lemma accTotals_foldl (qpi : Nat) :
    ∀ (rows : List Row) (acc : List (String × PhaseAcc)),
      accTotals (rows.foldl (aggStep qpi) acc) = accTotals acc + rows.length := by
  intro rows
  induction rows with
  | nil => intro acc; simp
  | cons r rest ih =>
    intro acc
    rw [List.foldl_cons, ih, accTotals_aggStep]
    simp [Nat.add_comm, Nat.add_assoc]

/-- Claim C10: for a non-empty current row set, the per-phase totals of
aggregate_phase_breakdown sum to the number of current rows, and every
phase's issue list has at most top_per_phase entries and is sorted by
descending count. -/
theorem c10_theorem (current previous : List Row) (qpi tpp : Nat) (h : current ≠ []) :
    ((aggregate_phase_breakdown current previous qpi tpp).map (fun pp => pp.2.total)).sum
        = current.length ∧
    ∀ pp ∈ aggregate_phase_breakdown current previous qpi tpp,
      pp.2.issues.length ≤ tpp ∧
      List.Sorted (fun a b : IssueRow => b.count ≤ a.count) pp.2.issues := by
  cases current with
  | nil => exact absurd rfl h
  | cons c rest =>
    constructor
    · unfold aggregate_phase_breakdown
      rw [List.map_map]
      have hcomp : ∀ pc : List (String × List (String × Nat)),
          ((fun pp : String × PhaseOut => pp.2.total) ∘ phaseOutOf pc tpp)
            = (fun pp : String × PhaseAcc => pp.2.total) :=
        fun pc => funext fun pp => rfl
      rw [hcomp]
      have := accTotals_foldl qpi (c :: rest) []
      simpa [accTotals] using this
    · intro pp hpp
      unfold aggregate_phase_breakdown at hpp
      obtain ⟨q, hq, hmk⟩ := List.mem_map.mp hpp
      constructor
      · rw [← hmk]
        exact List.length_take_le tpp _
      · rw [← hmk]
        exact List.Pairwise.sublist (List.take_sublist _ _)
          (List.sorted_insertionSort _ _)

/-- Claim C10 witness: the totals and the issue-list bounds instantiated
on a one-row dataset. -/
theorem c10_witness :
    ((aggregate_phase_breakdown [rowBlank] [] 2 6).map (fun pp => pp.2.total)).sum = 1 ∧
    (("학습 진행", c10out) : String × PhaseOut).2.issues.length ≤ 6 ∧
    List.Sorted (fun a b : IssueRow => b.count ≤ a.count)
      (("학습 진행", c10out) : String × PhaseOut).2.issues :=
  have hmem : (("학습 진행", c10out) : String × PhaseOut) ∈
      aggregate_phase_breakdown [rowBlank] [] 2 6 := by
    rw [show aggregate_phase_breakdown [rowBlank] [] 2 6 = [("학습 진행", c10out)] from rfl]
    exact List.mem_singleton_self _
  ⟨(c10_theorem [rowBlank] [] 2 6 (by decide)).1,
   ((c10_theorem [rowBlank] [] 2 6 (by decide)).2 _ hmem).1,
   ((c10_theorem [rowBlank] [] 2 6 (by decide)).2 _ hmem).2⟩

/-- Claim C8: the report build is a pure function of the dataset and the
reference instant — two builds from equal datasets and equal frozen
reference instants produce identical report documents (in this embedding
the reference instant is the only clock input, covering both clock reads
of the source under a frozen clock). -/
theorem c8_theorem (df1 df2 : List Row) (now1 now2 : Int)
    (hdf : df1 = df2) (hnow : now1 = now2) :
    build_report df1 now1 = build_report df2 now2 := by
  subst hdf
  subst hnow
  rfl

/-- Claim C8 witness: two builds on a concrete dataset and instant. -/
theorem c8_witness : build_report [rowToday] refInstant = build_report [rowToday] refInstant :=
  c8_theorem [rowToday] [rowToday] refInstant refInstant rfl rfl

end VOC
